import Mathlib

/-!
Shallow embedding of the screenshot/extraction pipeline of the
Streamlit-Selenium repository (files streamlit_web_app.py and
streamlit_app.py), together with proofs about its components.

Pure logic (URL validation and formatting, regex-based contact
extraction, screenshot-filename generation, webdriver option
construction, proxy-selector error handling, the runner's result
shape) is translated directly from the Python source.  External
effects (the requests/selenium/pandas calls) are passed in as explicit
outcome parameters: an `Except String α` value stands for "the foreign
call either raised an exception with this message or returned this
value".  Character classes of the regular expressions are modelled
over ASCII, which matches every scanned pattern in the source.
-/

/-! ## Character classes (ASCII models of the Python re classes) -/

/-- Model of the regex class `\w` (word character): letter, digit or underscore. -/
def isWordChar (c : Char) : Bool :=
  c.isAlpha || c.isDigit || c == '_'

/-- Model of the regex class `\s` (whitespace) as used by `re` on ASCII text. -/
def isSpaceChar (c : Char) : Bool :=
  c == ' ' || c == '\t' || c == '\n' || c == '\r' || c == '\x0b' || c == '\x0c'

/-- Character admitted inside the repetition of the phone pattern: `[\d\s\-]`. -/
def isPhoneChar (c : Char) : Bool :=
  c.isDigit || isSpaceChar c || c == '-'

/-- Character of the local part of the email pattern: `[a-zA-Z0-9._%+-]`. -/
def isLocalChar (c : Char) : Bool :=
  c.isAlpha || c.isDigit || c == '.' || c == '_' || c == '%' || c == '+' || c == '-'

/-- Character of the domain part of the email pattern: `[a-zA-Z0-9.-]`. -/
def isDomainChar (c : Char) : Bool :=
  c.isAlpha || c.isDigit || c == '.' || c == '-'

/-! ## Small string helpers (list-level models of str.startswith / os.path.join) -/

theorem isPrefixOf_append (p t : List Char) : p.isPrefixOf (p ++ t) = true := by
  induction p with
  | nil => simp [List.isPrefixOf]
  | cons a as ih => simp [List.isPrefixOf, ih]

theorem str_toList_append (s t : String) : (s ++ t).toList = s.toList ++ t.toList :=
  String.data_append s t

/-- Model of Python `s.startswith(pre)`. -/
def strStartsWith (s pre : String) : Bool :=
  pre.toList.isPrefixOf s.toList

/-- Model of Python `s.endswith(suf)`. -/
def strEndsWith (s suf : String) : Bool :=
  suf.toList.isSuffixOf s.toList

/-- Model of Python `os.path.join(directory, filename)` on POSIX paths. -/
def path_join (directory filename : String) : String :=
  if strStartsWith filename "/" then filename
  else if directory == "" then filename
  else if strEndsWith directory "/" then directory ++ filename
  else directory ++ "/" ++ filename

/-! ## Timestamps and strftime

Model of `datetime.now()` values down to microseconds, and of the
format string `"%Y%m%d_%H%M%S"`, which ignores the microsecond field. -/

structure Timestamp where
  year : Nat
  month : Nat
  day : Nat
  hour : Nat
  minute : Nat
  second : Nat
  microsecond : Nat
  deriving DecidableEq

/-- Two-digit zero-padded decimal rendering, as strftime produces for in-range fields. -/
def pad2 (n : Nat) : String :=
  String.mk [Nat.digitChar (n / 10 % 10), Nat.digitChar (n % 10)]

/-- Four-digit zero-padded decimal rendering, as strftime `%Y` produces for in-range years. -/
def pad4 (n : Nat) : String :=
  String.mk [Nat.digitChar (n / 1000 % 10), Nat.digitChar (n / 100 % 10),
    Nat.digitChar (n / 10 % 10), Nat.digitChar (n % 10)]

/-- Model of `datetime.strftime("%Y%m%d_%H%M%S")`: the microsecond field is not rendered. -/
def strftime_compact (t : Timestamp) : String :=
  pad4 t.year ++ pad2 t.month ++ pad2 t.day ++ "_" ++ pad2 t.hour ++
    pad2 t.minute ++ pad2 t.second

/-- Two timestamps fall in the same second: all rendered fields agree,
the microsecond field may differ. -/
def sameSecond (t1 t2 : Timestamp) : Bool :=
  t1.year == t2.year && t1.month == t2.month && t1.day == t2.day &&
    t1.hour == t2.hour && t1.minute == t2.minute && t1.second == t2.second

/-! ## The phone pattern

Backtracking semantics of `re.findall(r"\+?\d[\d\s\-]{7,}\d", s)`:
at each start position the engine optionally takes a leading `+`, then a
digit, then the greedy repetition takes the longest stretch of
`[\d\s\-]` characters that still leaves a final digit, requiring at
least 7 repeated characters.  `bestK` computes the greedy repetition
length: the largest admissible index of the closing digit. -/

def bestKAux (run : List Char) : Nat → Option Nat
  | 0 => none
  | n + 1 =>
    if 7 ≤ n ∧ (run.getD n ' ').isDigit = true then some n
    else bestKAux run n

def bestK (run : List Char) : Option Nat :=
  bestKAux run run.length

/-- Match `\d[\d\s\-]{7,}\d` at the head of the list, returning the matched
characters and the remaining input. -/
def matchPhoneCore : List Char → Option (List Char × List Char)
  | [] => none
  | d :: s2 =>
    if d.isDigit then
      let run := s2.takeWhile isPhoneChar
      match bestK run with
      | some k => some (d :: run.take (k + 1), s2.drop (k + 1))
      | none => none
    else none

/-- Match `\+?\d[\d\s\-]{7,}\d` at the head of the list.  When the leading
char is `+` but no phone number follows, dropping the optional `+` cannot
help because `\d` never matches `+`, so the whole attempt fails. -/
def matchPhoneAt (s : List Char) : Option (List Char × List Char) :=
  match s with
  | '+' :: rest =>
    match matchPhoneCore rest with
    | some (m, r) => some ('+' :: m, r)
    | none => none
  | _ => matchPhoneCore s

/-- Scan for all non-overlapping phone matches left to right, advancing one
character after a failed attempt, as `re.findall` does.  The fuel argument
(instantiated with the input length, which every step strictly decreases)
makes the recursion structural. -/
def scanPhonesAux : Nat → List Char → List (List Char)
  | 0, _ => []
  | _ + 1, [] => []
  | fuel + 1, c :: rest =>
    match matchPhoneAt (c :: rest) with
    | some (m, r) => m :: scanPhonesAux fuel r
    | none => scanPhonesAux fuel rest

/-! ## The email pattern

Backtracking semantics of
`re.findall(r"[a-zA-Z0-9._%+-]+@[a-zA-Z0-9.-]+\.[a-zA-Z]{2,}", s)`:
the local part is a maximal nonempty run of local characters (no
backtracking can help, since `@` is not a local character), then `@`,
then the greedy domain repetition takes the longest stretch of domain
characters that still leaves a literal `.` followed by at least two
letters.  `bestJ` computes the position of that dot; the position must be
at least 1, because the one-or-more domain repetition consumes at least
one character between the `@` and the dot. -/

def bestJAux (d : List Char) : Nat → Option Nat
  | 0 => none
  | n + 1 =>
    if 1 ≤ n ∧ d.getD n ' ' = '.' ∧ 2 ≤ ((d.drop (n + 1)).takeWhile Char.isAlpha).length then
      some n
    else bestJAux d n

def bestJ (d : List Char) : Option Nat :=
  bestJAux d d.length

/-- Match the email pattern at the head of the list, returning the matched
characters and the remaining input. -/
def matchEmailAt (s : List Char) : Option (List Char × List Char) :=
  let l := s.takeWhile isLocalChar
  if l.isEmpty then none
  else
    match s.drop l.length with
    | '@' :: s2 =>
      let d := s2.takeWhile isDomainChar
      match bestJ d with
      | some j =>
        let tld := (d.drop (j + 1)).takeWhile Char.isAlpha
        some (l ++ '@' :: (d.take j ++ '.' :: tld), s2.drop (j + 1 + tld.length))
      | none => none
    | _ => none

/-- Scan for all non-overlapping email matches left to right, advancing one
character after a failed attempt, as `re.findall` does. -/
def scanEmailsAux : Nat → List Char → List (List Char)
  | 0, _ => []
  | _ + 1, [] => []
  | fuel + 1, c :: rest =>
    match matchEmailAt (c :: rest) with
    | some (m, r) => m :: scanEmailsAux fuel r
    | none => scanEmailsAux fuel rest

/-! ## Sanitization

Model of `re.sub(r'\W+', '_', url)`: every maximal run of non-word
characters is replaced by a single underscore.  The boolean flag records
whether the previous character belonged to a non-word run that has
already emitted its underscore. -/

def sanitizeAux : Bool → List Char → List Char
  | _, [] => []
  | inRun, c :: rest =>
    if isWordChar c then c :: sanitizeAux false rest
    else if inRun then sanitizeAux true rest
    else '_' :: sanitizeAux true rest

/-- Helper for the validators model: does the list contain the scheme
separator `://` anywhere? -/
def containsSchemeSep : List Char → Bool
  | ':' :: '/' :: '/' :: _ => true
  | _ :: rest => containsSchemeSep rest
  | [] => false

/-- Helper for the validators model: split the list at the first `://`,
returning the part before it (the scheme) and the part after it. -/
def splitSchemeAux (acc : List Char) : List Char → Option (List Char × List Char)
  | ':' :: '/' :: '/' :: rest => some (acc.reverse, rest)
  | c :: rest => splitSchemeAux (c :: acc) rest
  | [] => none

/-- Helper for the validators model: characters before the first path,
query or fragment delimiter form the host part. -/
def hostChar (c : Char) : Bool :=
  !(c == '/' || c == '?' || c == '#')

/-- Chrome options object: the argument list built by `add_argument` calls
plus the capabilities set by `set_capability` (each capability is recorded
as the triple of capability name, dict key and dict value). -/
structure ChromeOptions where
  arguments : List String
  capabilities : List (String × String × String)
  deriving DecidableEq

/-! ## streamlit_web_app.py -/

namespace Web

/-- Modelled from the external validators library called by
`validate_and_format_url`: `validators.url` performs a purely syntactic
check that requires an explicit scheme — the string must contain a
single `://`, preceded by a nonempty alphabetic scheme name and followed
by a nonempty host made of letters, digits, dots, hyphens and an
optional port.  In particular a string without `://` (such as
`www.example.com` or an all-whitespace string) is always rejected,
in every published version of the library. -/
def validators_url (url : String) : Bool :=
  match splitSchemeAux [] url.toList with
  | none => false
  | some (scheme, rest) =>
    !scheme.isEmpty && scheme.all Char.isAlpha &&
      !(containsSchemeSep rest) &&
      !(rest.takeWhile hostChar).isEmpty &&
      (rest.takeWhile hostChar).all
        (fun c => c.isAlpha || c.isDigit || c == '.' || c == '-' || c == ':')

/-- `validate_and_format_url` from streamlit_web_app.py: reject anything the
validators library rejects, then prepend `https://` when the string does
not already start with `http://` or `https://`. -/
def validate_and_format_url (url : String) : Option String :=
  if !(validators_url url) then none
  else if !(strStartsWith url "http://" || strStartsWith url "https://") then
    some ("https://" ++ url)
  else some url

/-- `generate_screenshot_filename` from streamlit_web_app.py, with the
`datetime.now()` value passed in explicitly. -/
def generate_screenshot_filename (url : String) (directory : String) (now : Timestamp) : String :=
  let timestamp := strftime_compact now
  let sanitized_url := String.mk (sanitizeAux false url.toList)
  let filename := sanitized_url ++ "_" ++ timestamp ++ ".png"
  path_join directory filename

/-- The filename component produced by `generate_screenshot_filename`
(before it is joined onto the directory). -/
def screenshot_basename (url : String) (now : Timestamp) : String :=
  String.mk (sanitizeAux false url.toList) ++ "_" ++ strftime_compact now ++ ".png"

/-- Return type of `extract_contact_info`: the dict with keys
`emails` and `phone_numbers`. -/
structure ContactInfo where
  emails : List String
  phone_numbers : List String
  deriving DecidableEq

/-- `extract_contact_info` from streamlit_web_app.py: the two `re.findall`
passes over the raw HTML string. -/
def extract_contact_info (html_content : String) : ContactInfo :=
  { emails := (scanEmailsAux html_content.toList.length html_content.toList).map String.mk,
    phone_numbers := (scanPhonesAux html_content.toList.length html_content.toList).map String.mk }

/-- `get_webdriver_options` from streamlit_web_app.py: a fixed list of
arguments, plus one proxy argument exactly when both the proxy endpoint
and the protocol tag are non-None. -/
def get_webdriver_options (proxy : Option String) (socks_str : Option String) : ChromeOptions :=
  let options : ChromeOptions :=
    { arguments := ["--headless=new", "--no-sandbox", "--disable-dev-shm-usage",
        "--disable-gpu", "--window-size=1920x1080", "--disable-features=VizDisplayCompositor",
        "--ignore-certificate-errors"],
      capabilities := [] }
  match proxy, socks_str with
  | some p, some s =>
    { options with arguments := options.arguments ++ ["--proxy-server=" ++ s ++ "://" ++ p] }
  | _, _ => options

/-- Return value of `run_selenium_and_screenshot` in streamlit_web_app.py:
the 4-tuple (screenshot_path, contact_info, text_content, error_msg),
each component optional. -/
structure RunResult where
  screenshot_path : Option String
  contact_info : Option ContactInfo
  text_content : Option String
  error_msg : Option String
  deriving DecidableEq

/-- `run_selenium_and_screenshot` from streamlit_web_app.py.  The whole
selenium session (driver construction, navigation, readiness wait,
screenshot capture and page-source retrieval) is the foreign call: an
`Except.error e` session stands for any exception raised inside the try
block, an `Except.ok html` session for a successful run yielding the
page source.  `page_text` stands for the external BeautifulSoup
`get_text` call used by `extract_text_content`. -/
def run_selenium_and_screenshot (logpath : String) (url : String)
    (proxy : Option String) (socks_str : Option String) (screenshot_dir : String)
    (now : Timestamp) (session : Except String String) (page_text : String → String) :
    RunResult :=
  match validate_and_format_url url with
  | none =>
    { screenshot_path := none, contact_info := none, text_content := none,
      error_msg := some "Invalid URL entered." }
  | some u =>
    match session with
    | Except.ok html =>
      { screenshot_path := some (generate_screenshot_filename u screenshot_dir now),
        contact_info := some (extract_contact_info html),
        text_content := some (page_text html),
        error_msg := none }
    | Except.error e =>
      { screenshot_path := none, contact_info := none, text_content := none,
        error_msg := some ("Selenium Exception occurred: " ++ e) }

end Web

/-! ## streamlit_app.py -/

namespace App

/-- One row of the normalized proxy dataframe, after `.astype(str)`:
the fields every caller reads. -/
structure ProxyRow where
  ip : String
  port : String
  country : String
  deriving DecidableEq

/-- Return value of the proxy selectors: the Python pair is
`(False, str(e))` on any caught exception and `(True, dataframe)`
otherwise. -/
inductive SelectorResult where
  | failure (cause : String) : SelectorResult
  | success (proxies : List ProxyRow) : SelectorResult
  deriving DecidableEq

/-- Does a selector result carry a non-empty cause string?  Only the
failure constructor carries a cause at all. -/
def hasNonemptyCause : SelectorResult → Bool
  | SelectorResult.failure cause => !(cause == "")
  | SelectorResult.success _ => false

/-- `get_proxyscrape_socks4` from streamlit_app.py.  The `attempt`
parameter is the outcome of the foreign calls in the try block
(`requests.get`, `raise_for_status`, `.json()`, `pd.json_normalize`,
`.astype(str)`): either an exception message or the parsed rows.
An empty proxy list from the API is a normal `Except.ok []` outcome. -/
def get_proxyscrape_socks4 (attempt : Except String (List ProxyRow)) : SelectorResult :=
  match attempt with
  | Except.error e => SelectorResult.failure e
  | Except.ok response => SelectorResult.success response

/-- `get_mtproto_socks5` from streamlit_app.py: same try/except/else shape
around its own foreign calls (`requests.get`, `.json()`, `pd.DataFrame`,
`.astype(str)`). -/
def get_mtproto_socks5 (attempt : Except String (List ProxyRow)) : SelectorResult :=
  match attempt with
  | Except.error e => SelectorResult.failure e
  | Except.ok response => SelectorResult.success response

/-- `get_webdriver_options` from streamlit_app.py: a fixed list of
arguments, one proxy argument exactly when both the proxy endpoint and
the protocol tag are non-None, and the unconditional performance-logging
capability. -/
def get_webdriver_options (proxy : Option String) (socksStr : Option String) : ChromeOptions :=
  let options : ChromeOptions :=
    { arguments := ["--headless", "--no-sandbox", "--disable-dev-shm-usage", "--disable-gpu",
        "--disable-features=NetworkService", "--window-size=1920x1080",
        "--disable-features=VizDisplayCompositor", "--ignore-certificate-errors"],
      capabilities := [] }
  let options : ChromeOptions :=
    match proxy, socksStr with
    | some p, some s =>
      { options with arguments := options.arguments ++ ["--proxy-server=" ++ s ++ "://" ++ p] }
    | _, _ => options
  { options with
    capabilities := options.capabilities ++ [("goog:loggingPrefs", "performance", "ALL")] }

/-- `run_selenium_and_screenshot` from streamlit_app.py: the screenshot
path is fixed to `cwd/screenshot.png` before the session runs; any
exception raised by the session is caught and shown in the UI, after
which the function falls through and returns the same path it would
return on success.  The returned value carries no error information. -/
def run_selenium_and_screenshot (cwd : String) (logpath : String) (url : String)
    (proxy : Option String) (socksStr : Option String) (session : Except String Unit) :
    String :=
  let screenshot_path := path_join cwd "screenshot.png"
  match session with
  | Except.ok _ => screenshot_path
  | Except.error _ => screenshot_path

end App

/-- Does a webdriver argument select a proxy server? -/
def hasProxyServerArg (a : String) : Bool :=
  ("--proxy-server=").toList.isPrefixOf a.toList

/-! ## Helper lemmas -/

theorem strStartsWith_append (pre t : String) : strStartsWith (pre ++ t) pre = true := by
  unfold strStartsWith
  rw [str_toList_append]
  exact isPrefixOf_append _ _

theorem hasProxyServerArg_append (v : String) :
    hasProxyServerArg ("--proxy-server=" ++ v) = true := by
  unfold hasProxyServerArg
  rw [str_toList_append]
  exact isPrefixOf_append _ _

theorem hasProxyServerArg_proxy (s p : String) :
    hasProxyServerArg ("--proxy-server=" ++ s ++ "://" ++ p) = true := by
  unfold hasProxyServerArg
  simp only [str_toList_append, List.append_assoc]
  exact isPrefixOf_append _ _

theorem all_imp {l : List Char} {p q : Char → Bool} (h : l.all p = true)
    (hpq : ∀ c, p c = true → q c = true) : l.all q = true := by
  simp only [List.all_eq_true] at h ⊢
  exact fun c hc => hpq c (h c hc)

theorem not_mem_of_all {l : List Char} {p : Char → Bool} (h : l.all p = true) (c : Char)
    (hc : p c = false) : c ∉ l := by
  simp only [List.all_eq_true] at h
  intro hmem
  rw [h c hmem] at hc
  cases hc

theorem digitChar_mod_isDigit (n : Nat) : (Nat.digitChar (n % 10)).isDigit = true := by
  have h : n % 10 < 10 := Nat.mod_lt _ (by norm_num)
  interval_cases h : n % 10 <;> decide

theorem pad2_all_digit (n : Nat) : (pad2 n).toList.all Char.isDigit = true := by
  simp [pad2, digitChar_mod_isDigit]

theorem pad4_all_digit (n : Nat) : (pad4 n).toList.all Char.isDigit = true := by
  simp [pad4, digitChar_mod_isDigit]

theorem strftime_all_word (t : Timestamp) :
    (strftime_compact t).toList.all isWordChar = true := by
  have himp : ∀ c : Char, c.isDigit = true → isWordChar c = true := by
    intro c hc
    simp [isWordChar, hc]
  unfold strftime_compact
  simp only [str_toList_append, List.all_append, Bool.and_eq_true]
  exact ⟨⟨⟨⟨⟨⟨all_imp (pad4_all_digit _) himp, all_imp (pad2_all_digit _) himp⟩,
    all_imp (pad2_all_digit _) himp⟩, by decide⟩,
    all_imp (pad2_all_digit _) himp⟩, all_imp (pad2_all_digit _) himp⟩,
    all_imp (pad2_all_digit _) himp⟩

theorem sanitizeAux_all_word (b : Bool) (l : List Char) :
    (sanitizeAux b l).all isWordChar = true := by
  induction l generalizing b with
  | nil => rfl
  | cons c t ih =>
    by_cases hc : isWordChar c = true
    · simp [sanitizeAux, hc, ih]
    · have hc' : isWordChar c = false := by
        cases hcc : isWordChar c
        · rfl
        · exact absurd hcc hc
      cases b <;> simp [sanitizeAux, hc', ih, (by decide : isWordChar '_' = true)]

theorem sanitizeAux_nonword_run (r s : List Char)
    (hr : ∀ c ∈ r, isWordChar c = false) :
    sanitizeAux true (r ++ s) = sanitizeAux true s := by
  induction r with
  | nil => rfl
  | cons c t ih =>
    have hc := hr c (List.mem_cons_self c t)
    simp only [List.cons_append, sanitizeAux, hc]
    simp only [Bool.false_eq_true, if_false, if_true]
    exact ih (fun x hx => hr x (List.mem_cons_of_mem c hx))

theorem sanitizeAux_true_boundary (s : List Char)
    (hs : s = [] ∨ ∃ c t, s = c :: t ∧ isWordChar c = true) :
    sanitizeAux true s = sanitizeAux false s := by
  rcases hs with rfl | ⟨c, t, rfl, hc⟩
  · rfl
  · simp [sanitizeAux, hc]

theorem sanitizeAux_collapse (r s : List Char) (hne : r ≠ [])
    (hr : ∀ c ∈ r, isWordChar c = false)
    (hs : s = [] ∨ ∃ c t, s = c :: t ∧ isWordChar c = true) :
    sanitizeAux false (r ++ s) = '_' :: sanitizeAux false s := by
  cases r with
  | nil => exact absurd rfl hne
  | cons c t =>
    have hc := hr c (List.mem_cons_self c t)
    simp only [List.cons_append, sanitizeAux, hc]
    simp only [Bool.false_eq_true, if_false, List.append_eq]
    rw [sanitizeAux_nonword_run t s (fun x hx => hr x (List.mem_cons_of_mem c hx))]
    rw [sanitizeAux_true_boundary s hs]

theorem sanitizeAux_word (c : Char) (s : List Char) (hc : isWordChar c = true) :
    sanitizeAux false (c :: s) = c :: sanitizeAux false s := by
  simp [sanitizeAux, hc]

theorem strftime_sameSecond (t1 t2 : Timestamp) (h : sameSecond t1 t2 = true) :
    strftime_compact t1 = strftime_compact t2 := by
  unfold sameSecond at h
  simp only [Bool.and_eq_true, beq_iff_eq] at h
  obtain ⟨⟨⟨⟨⟨h1, h2⟩, h3⟩, h4⟩, h5⟩, h6⟩ := h
  unfold strftime_compact
  rw [h1, h2, h3, h4, h5, h6]

theorem strStartsWith_slash_of_all (f : String)
    (h : f.toList.all (fun c => isWordChar c || c == '.') = true) :
    strStartsWith f "/" = false := by
  unfold strStartsWith
  cases hf : f.toList with
  | nil => rfl
  | cons x xs =>
    have hx : (isWordChar x || x == '.') = true :=
      List.all_eq_true.mp (hf ▸ h) x (List.mem_cons_self x xs)
    have hx2 : ('/' == x) = false := by
      cases hbe : ('/' == x)
      · rfl
      · have hxe : x = '/' := (beq_iff_eq.mp hbe).symm
        subst hxe
        exact absurd hx (by decide)
    simp [List.isPrefixOf, hx2]

theorem getD_mem_take (l : List Char) (k : Nat) (h : k < l.length) :
    l.getD k ' ' ∈ l.take (k + 1) := by
  induction l generalizing k with
  | nil => simp at h
  | cons a t ih =>
    cases k with
    | zero => simp [List.getD]
    | succ k =>
      have hk : k < t.length := by simpa using h
      simp only [List.getD_cons_succ, List.take_succ_cons]
      exact List.mem_cons_of_mem a (ih k hk)

theorem bestKAux_spec (run : List Char) (n k : Nat) (h : bestKAux run n = some k) :
    7 ≤ k ∧ k < n ∧ (run.getD k ' ').isDigit = true := by
  induction n with
  | zero => simp [bestKAux] at h
  | succ n ih =>
    unfold bestKAux at h
    split at h
    · rename_i hcond
      injection h with h'
      subst h'
      exact ⟨hcond.1, Nat.lt_succ_self n, hcond.2⟩
    · have hrec := ih h
      exact ⟨hrec.1, Nat.lt_succ_of_lt hrec.2.1, hrec.2.2⟩

theorem matchPhoneCore_spec (s m r : List Char) (h : matchPhoneCore s = some (m, r)) :
    9 ≤ m.length ∧ 2 ≤ (m.filter Char.isDigit).length := by
  cases s with
  | nil => simp [matchPhoneCore] at h
  | cons d s2 =>
    unfold matchPhoneCore at h
    by_cases hd : d.isDigit = true
    · simp only [hd, if_true] at h
      cases hbk : bestK (s2.takeWhile isPhoneChar) with
      | none => rw [hbk] at h; simp at h
      | some k =>
        rw [hbk] at h
        simp only [Option.some.injEq, Prod.mk.injEq] at h
        obtain ⟨hm, hr⟩ := h
        obtain ⟨h7, hklt, hdig⟩ := bestKAux_spec _ _ _ hbk
        subst hm
        have hlen : ((s2.takeWhile isPhoneChar).take (k + 1)).length = k + 1 := by
          rw [List.length_take]
          omega
        constructor
        · simp only [List.length_cons, hlen]
          omega
        · rw [List.filter_cons_of_pos hd]
          have hmem : (s2.takeWhile isPhoneChar).getD k ' '
              ∈ ((s2.takeWhile isPhoneChar).take (k + 1)).filter Char.isDigit :=
            List.mem_filter.mpr ⟨getD_mem_take _ _ hklt, hdig⟩
          have hpos : 0 < (((s2.takeWhile isPhoneChar).take (k + 1)).filter Char.isDigit).length :=
            List.length_pos.mpr (List.ne_nil_of_mem hmem)
          simp only [List.length_cons]
          omega
    · simp only [if_neg hd] at h
      exact absurd h (by simp)

theorem matchPhoneAt_spec (s m r : List Char) (h : matchPhoneAt s = some (m, r)) :
    9 ≤ m.length ∧ 2 ≤ (m.filter Char.isDigit).length := by
  unfold matchPhoneAt at h
  split at h
  · rename_i rest
    cases hc : matchPhoneCore rest with
    | none => rw [hc] at h; simp at h
    | some mr =>
      obtain ⟨m', r'⟩ := mr
      rw [hc] at h
      simp only [Option.some.injEq, Prod.mk.injEq] at h
      obtain ⟨hm, hr⟩ := h
      have hspec := matchPhoneCore_spec rest m' r' hc
      subst hm
      constructor
      · simp only [List.length_cons]
        omega
      · rw [List.filter_cons_of_neg (by decide)]
        exact hspec.2
  · exact matchPhoneCore_spec s m r h

theorem scanPhonesAux_spec (fuel : Nat) : ∀ (s m : List Char), m ∈ scanPhonesAux fuel s →
    9 ≤ m.length ∧ 2 ≤ (m.filter Char.isDigit).length := by
  induction fuel with
  | zero =>
    intro s m hm
    simp [scanPhonesAux] at hm
  | succ n ih =>
    intro s m hm
    cases s with
    | nil => simp [scanPhonesAux] at hm
    | cons c rest =>
      unfold scanPhonesAux at hm
      cases hma : matchPhoneAt (c :: rest) with
      | none =>
        rw [hma] at hm
        exact ih rest m hm
      | some p =>
        obtain ⟨m', r⟩ := p
        rw [hma] at hm
        simp only [List.mem_cons] at hm
        rcases hm with rfl | hm
        · exact matchPhoneAt_spec _ _ _ hma
        · exact ih r m hm

/-! ## Claims -/

/-- C1, counterexample: the claim fails on the streamlit_app.py Runner.  On an
input whose browser session raises, `App.run_selenium_and_screenshot` still
returns the fixed screenshot path — a value with no error field at all — and
that value is identical to the one returned by a succeeding session, so the
result neither has a populated error field nor an absent screenshot path. -/
theorem C1_runner_failure_counterexample :
    App.run_selenium_and_screenshot "/app" "selenium.log" "http://example.com" none none
        (Except.error "boom") = "/app/screenshot.png" ∧
      App.run_selenium_and_screenshot "/app" "selenium.log" "http://example.com" none none
          (Except.error "boom")
        = App.run_selenium_and_screenshot "/app" "selenium.log" "http://example.com" none none
          (Except.ok ()) := by
  constructor
  · decide
  · rfl

/-- C1, amended: the claimed behaviour holds for the streamlit_web_app.py
Runner — on every validated URL whose browser session raises, it returns a
result with the error field populated and screenshotPath, contacts and
pageText all absent, and it does not propagate the exception — while the
streamlit_app.py Runner instead always returns the fixed path
cwd/screenshot.png with no error field, whether or not the session raised. -/
theorem C1_runner_failure_amended (logpath url cwd : String)
    (proxy socks_str : Option String) (screenshot_dir : String) (now : Timestamp)
    (e : String) (page_text : String → String) (session : Except String Unit)
    (h : (Web.validate_and_format_url url).isSome = true) :
    Web.run_selenium_and_screenshot logpath url proxy socks_str screenshot_dir now
        (Except.error e) page_text
      = { screenshot_path := none, contact_info := none, text_content := none,
          error_msg := some ("Selenium Exception occurred: " ++ e) } ∧
    App.run_selenium_and_screenshot cwd logpath url proxy socks_str session
      = path_join cwd "screenshot.png" := by
  constructor
  · obtain ⟨u, hu⟩ := Option.isSome_iff_exists.mp h
    unfold Web.run_selenium_and_screenshot
    rw [hu]
  · unfold App.run_selenium_and_screenshot
    cases session <;> rfl

/-- Witness for C1 at a concrete validated URL and a concrete raising session. -/
theorem C1_runner_failure_amended_witness :
    Web.run_selenium_and_screenshot "selenium.log" "http://example.com" none none
        "screenshots" ⟨2024, 5, 6, 7, 8, 9, 10⟩ (Except.error "boom") id
      = { screenshot_path := none, contact_info := none, text_content := none,
          error_msg := some ("Selenium Exception occurred: " ++ "boom") } :=
  (C1_runner_failure_amended "selenium.log" "http://example.com" "/app" none none
    "screenshots" ⟨2024, 5, 6, 7, 8, 9, 10⟩ "boom" id (Except.ok ()) (by decide)).1

/-- C2, code evaluated at the failing input: the scheme-less string
`www.example.com` is rejected by `validate_and_format_url` (the external
validators check runs on the raw string, before any `https://` prefix is
applied, and that check requires an explicit scheme), so the function
returns the rejection value None instead of the claimed
`https://www.example.com`. -/
theorem C2_validator_schemeless_eval :
    Web.validators_url "www.example.com" = false ∧
      Web.validate_and_format_url "www.example.com" = none ∧
      Web.validate_and_format_url "www.example.com" ≠ some "https://www.example.com" := by
  refine ⟨by decide, by decide, ?_⟩
  intro hcontra
  exact absurd hcontra (by decide)

/-- C3, counterexample: the phone scanning pass can return a string with
only 2 digit characters.  On the input `1       2` (a digit, seven spaces,
a digit) the pattern `\+?\d[\d\s\-]{7,}\d` matches the whole string, whose
concatenated digits are `12`. -/
theorem C3_phone_digits_counterexample :
    (Web.extract_contact_info "1       2").phone_numbers = ["1       2"] ∧
      (("1       2" : String).toList.filter Char.isDigit).length = 2 ∧
      ¬ 9 ≤ (("1       2" : String).toList.filter Char.isDigit).length := by
  refine ⟨by decide, by decide, ?_⟩
  intro hcontra
  exact absurd hcontra (by decide)

/-- C3, amended: every string returned by the phone scanning pass of
`extract_contact_info` has total length at least 9 and contains at least 2
digit characters (its first and last matched digits); the minimum of 9
constrains the character count, not the digit count. -/
theorem C3_phone_digits_amended (html p : String)
    (hp : p ∈ (Web.extract_contact_info html).phone_numbers) :
    9 ≤ p.length ∧ 2 ≤ (p.toList.filter Char.isDigit).length := by
  unfold Web.extract_contact_info at hp
  simp only [List.mem_map] at hp
  obtain ⟨m, hm, rfl⟩ := hp
  exact scanPhonesAux_spec _ _ _ hm

/-- Witness for C3 at a concrete input containing one phone match. -/
theorem C3_phone_digits_amended_witness :
    9 ≤ ("+33 6 12 34 56 78" : String).length ∧
      2 ≤ (("+33 6 12 34 56 78" : String).toList.filter Char.isDigit).length :=
  C3_phone_digits_amended "Contact: a.b@example.com or +33 6 12 34 56 78"
    "+33 6 12 34 56 78" (by decide)

/-- C4, counterexample: on an empty API result both selectors return the
success flag with an empty proxy sequence and no cause string at all, so
the claimed "empty sequence together with a non-empty cause string" fails
at the empty-result input. -/
theorem C4_selector_counterexample :
    App.get_proxyscrape_socks4 (Except.ok []) = App.SelectorResult.success [] ∧
      App.hasNonemptyCause (App.get_proxyscrape_socks4 (Except.ok [])) = false ∧
      App.get_mtproto_socks5 (Except.ok []) = App.SelectorResult.success [] ∧
      App.hasNonemptyCause (App.get_mtproto_socks5 (Except.ok [])) = false :=
  ⟨rfl, rfl, rfl, rfl⟩

/-- C4, amended: on any exception raised during fetch or parse (network
failure or malformed response) both selectors catch it and return the
failure flag carrying the exception message, and on a successful fetch —
including an empty result — they return the success flag carrying the
parsed rows; neither selector ever raises (both are total functions of the
fetch outcome), but an empty result carries no cause string. -/
theorem C4_selector_amended (e : String) (rows : List App.ProxyRow) :
    App.get_proxyscrape_socks4 (Except.error e) = App.SelectorResult.failure e ∧
      App.get_mtproto_socks5 (Except.error e) = App.SelectorResult.failure e ∧
      App.get_proxyscrape_socks4 (Except.ok rows) = App.SelectorResult.success rows ∧
      App.get_mtproto_socks5 (Except.ok rows) = App.SelectorResult.success rows :=
  ⟨rfl, rfl, rfl, rfl⟩

/-- C5, confirmed: on the HTML string
`Contact: a.b@example.com or +33 6 12 34 56 78` the extractor returns
exactly the email `a.b@example.com`, and its phone list contains the
string `+33 6 12 34 56 78`, whose digit characters concatenated in order
are `33612345678`. -/
theorem C5_extractor_example :
    Web.extract_contact_info "Contact: a.b@example.com or +33 6 12 34 56 78"
        = ⟨["a.b@example.com"], ["+33 6 12 34 56 78"]⟩ ∧
      ("+33 6 12 34 56 78" : String).toList.filter Char.isDigit
        = ("33612345678" : String).toList := by
  exact ⟨by decide, by decide⟩

/-- C6, confirmed: the artifact namer produces the path obtained by joining
the directory with `<sanitized-url>_<YYYYMMDD_HHMMSS>.png`; sanitization
maps every maximal run of non-word characters to a single underscore while
keeping word characters unchanged; and two invocations with the same url,
the same directory and timestamps falling in the same second produce
identical output paths. -/
theorem C6_namer (url directory : String) (t1 t2 : Timestamp)
    (h : sameSecond t1 t2 = true) :
    Web.generate_screenshot_filename url directory t1
        = Web.generate_screenshot_filename url directory t2 ∧
      Web.generate_screenshot_filename url directory t1
        = path_join directory (Web.screenshot_basename url t1) ∧
      (∀ r s, r ≠ [] → (∀ c ∈ r, isWordChar c = false) →
        (s = [] ∨ ∃ c t, s = c :: t ∧ isWordChar c = true) →
        sanitizeAux false (r ++ s) = '_' :: sanitizeAux false s) ∧
      (∀ c s, isWordChar c = true →
        sanitizeAux false (c :: s) = c :: sanitizeAux false s) := by
  refine ⟨?_, rfl, sanitizeAux_collapse, sanitizeAux_word⟩
  unfold Web.generate_screenshot_filename
  rw [strftime_sameSecond t1 t2 h]

/-- Witness for C6: two timestamps that differ only in microseconds give
the same screenshot path. -/
theorem C6_namer_witness :
    Web.generate_screenshot_filename "https://www.example.com" "screenshots"
        ⟨2024, 5, 6, 7, 8, 9, 10⟩
      = Web.generate_screenshot_filename "https://www.example.com" "screenshots"
        ⟨2024, 5, 6, 7, 8, 9, 999999⟩ :=
  (C6_namer "https://www.example.com" "screenshots"
    ⟨2024, 5, 6, 7, 8, 9, 10⟩ ⟨2024, 5, 6, 7, 8, 9, 999999⟩ (by decide)).1

/-- C7, confirmed: in both files, the webdriver options contain a
`--proxy-server=` argument exactly when both the proxy endpoint and the
protocol tag are non-None, and when either is absent the returned options
are identical to the no-proxy options. -/
theorem C7_options (proxy socks : Option String) :
    ((Web.get_webdriver_options proxy socks).arguments.any hasProxyServerArg
        = (proxy.isSome && socks.isSome)) ∧
      ((App.get_webdriver_options proxy socks).arguments.any hasProxyServerArg
        = (proxy.isSome && socks.isSome)) ∧
      ((proxy.isNone || socks.isNone) = true →
        Web.get_webdriver_options proxy socks = Web.get_webdriver_options none none ∧
          App.get_webdriver_options proxy socks = App.get_webdriver_options none none) := by
  cases proxy with
  | none =>
    cases socks with
    | none => exact ⟨rfl, rfl, fun _ => ⟨rfl, rfl⟩⟩
    | some s => exact ⟨rfl, rfl, fun _ => ⟨rfl, rfl⟩⟩
  | some p =>
    cases socks with
    | none => exact ⟨rfl, rfl, fun _ => ⟨rfl, rfl⟩⟩
    | some s =>
      refine ⟨?_, ?_, ?_⟩
      · show (Web.get_webdriver_options (some p) (some s)).arguments.any hasProxyServerArg = true
        refine List.any_eq_true.mpr
          ⟨"--proxy-server=" ++ s ++ "://" ++ p, ?_, hasProxyServerArg_proxy s p⟩
        exact List.mem_append_right _ (List.mem_singleton.mpr rfl)
      · show (App.get_webdriver_options (some p) (some s)).arguments.any hasProxyServerArg = true
        refine List.any_eq_true.mpr
          ⟨"--proxy-server=" ++ s ++ "://" ++ p, ?_, hasProxyServerArg_proxy s p⟩
        exact List.mem_append_right _ (List.mem_singleton.mpr rfl)
      · intro hcontra
        simp at hcontra

/-- Witness for C7: with the protocol tag present but no proxy endpoint,
the options equal the no-proxy options. -/
theorem C7_options_witness :
    Web.get_webdriver_options none (some "socks5") = Web.get_webdriver_options none none ∧
      App.get_webdriver_options none (some "socks5") = App.get_webdriver_options none none :=
  (C7_options none (some "socks5")).2.2 (by decide)

/-- C8, confirmed: every string rejected by the syntactic URL check — for
example an all-whitespace string, which contains no scheme — makes
`validate_and_format_url` return the rejection value None; the function is
total, so nothing is raised. -/
theorem C8_invalid_url (url : String) (h : Web.validators_url url = false) :
    Web.validate_and_format_url url = none := by
  unfold Web.validate_and_format_url
  simp [h]

/-- Witness for C8 at the all-whitespace input. -/
theorem C8_invalid_url_witness :
    Web.validators_url "   " = false ∧ Web.validate_and_format_url "   " = none :=
  ⟨by decide, C8_invalid_url "   " (by decide)⟩

/-- C9, confirmed: whenever `validate_and_format_url` returns a string, that
string starts with `http://` or with `https://`. -/
theorem C9_scheme_invariant (url s : String)
    (h : Web.validate_and_format_url url = some s) :
    strStartsWith s "http://" = true ∨ strStartsWith s "https://" = true := by
  unfold Web.validate_and_format_url at h
  by_cases hv : Web.validators_url url = true
  · rw [hv] at h
    simp only [Bool.not_true, Bool.false_eq_true, if_false] at h
    by_cases hs : (strStartsWith url "http://" || strStartsWith url "https://") = true
    · rw [hs] at h
      simp only [Bool.not_true, Bool.false_eq_true, if_false, Option.some.injEq] at h
      subst h
      simpa using hs
    · rw [Bool.not_eq_true] at hs
      rw [hs] at h
      simp only [Bool.not_false, if_true, Option.some.injEq] at h
      subst h
      exact Or.inr (strStartsWith_append "https://" url)
  · rw [Bool.not_eq_true] at hv
    rw [hv] at h
    simp at h

/-- Witness for C9 at a concrete accepted URL. -/
theorem C9_scheme_invariant_witness :
    strStartsWith "http://example.com" "http://" = true ∨
      strStartsWith "http://example.com" "https://" = true :=
  C9_scheme_invariant "http://example.com" "http://example.com" (by decide)

/-- C10, confirmed: for every url, directory and timestamp the namer's path
is the directory joined with a filename whose characters are all word
characters except for the single dot of the `.png` extension; in
particular the filename contains no path separator and does not begin with
one, so arbitrary URL content cannot escape the output directory. -/
theorem C10_filename_containment (url directory : String) (t : Timestamp) :
    Web.generate_screenshot_filename url directory t
        = path_join directory (Web.screenshot_basename url t) ∧
      (Web.screenshot_basename url t).toList.all
        (fun c => isWordChar c || c == '.') = true ∧
      (Web.screenshot_basename url t).toList.count '/' = 0 ∧
      (Web.screenshot_basename url t).toList.count '.' = 1 ∧
      strStartsWith (Web.screenshot_basename url t) "/" = false := by
  have hdecomp : (Web.screenshot_basename url t).toList
      = sanitizeAux false url.toList ++ ("_" : String).toList
        ++ (strftime_compact t).toList ++ (".png" : String).toList := by
    unfold Web.screenshot_basename
    rw [str_toList_append, str_toList_append, str_toList_append]
    rfl
  have hall : (Web.screenshot_basename url t).toList.all
      (fun c => isWordChar c || c == '.') = true := by
    rw [hdecomp]
    simp only [List.all_append, Bool.and_eq_true]
    refine ⟨⟨⟨all_imp (sanitizeAux_all_word false url.toList) ?_, by decide⟩,
      all_imp (strftime_all_word t) ?_⟩, by decide⟩
    · intro c hc
      simp [hc]
    · intro c hc
      simp [hc]
  have hsan_no : ∀ c : Char, isWordChar c = false →
      (sanitizeAux false url.toList).count c = 0 := fun c hc =>
    List.count_eq_zero.mpr (not_mem_of_all (sanitizeAux_all_word false url.toList) c hc)
  have hfmt_no : ∀ c : Char, isWordChar c = false →
      ((strftime_compact t).toList).count c = 0 := fun c hc =>
    List.count_eq_zero.mpr (not_mem_of_all (strftime_all_word t) c hc)
  refine ⟨rfl, hall, ?_, ?_, strStartsWith_slash_of_all _ hall⟩
  · rw [hdecomp]
    simp only [List.count_append]
    rw [hsan_no '/' (by decide), hfmt_no '/' (by decide)]
    decide
  · rw [hdecomp]
    simp only [List.count_append]
    rw [hsan_no '.' (by decide), hfmt_no '.' (by decide)]
    decide
